import Mathlib

/-
Verification of the brokerage-statement parsing core (helpers.py, core.py).

Modelling conventions:
- Spreadsheet cell values are `Cell`: absent, a string, or a number.
  Python floats are modelled as rationals (ℚ); float rounding is out of
  scope, so "equal within floating tolerance" becomes exact equality.
- A worksheet is a `Grid`: a list of rows, each a list of cells; cells are
  addressed 1-based like openpyxl and padded with absent values up to the
  grid's column extent.
- Python regular-expression searches are modelled by dedicated search
  functions over strings (the patterns involved are literal word sequences
  separated by runs of whitespace, plus one dot-star gap that must not
  cross a newline).
- Python's `str.lower()` is modelled for ASCII and the Cyrillic block used
  by the patterns; `float(...)` parsing is modelled for the usual
  sign/digits/point/exponent forms (underscored literals and inf/nan forms
  are treated as unparseable).
- Fallible code paths (raise RuntimeError) are modelled with Except.
-/

namespace TB

/-- Whitespace characters recognised by trimming and by the regex class
backslash-s: space, tab, LF, VT, FF, CR and the no-break space. -/
def isSpaceChar (c : Char) : Bool :=
  c = ' ' || c = '\t' || c = '\n' || c = Char.ofNat 11 || c = Char.ofNat 12 ||
  c = Char.ofNat 13 || c = Char.ofNat 160

/-- ASCII digit test. -/
def isAsciiDigit (c : Char) : Bool :=
  '0' ≤ c && c ≤ '9'

/-- Lowercasing of one character: ASCII A-Z and Cyrillic А-Я plus Ё
(the alphabets occurring in the recognised vocabularies). -/
def lowerChar (c : Char) : Char :=
  if 'A' ≤ c && c ≤ 'Z' then Char.ofNat (c.toNat + 32)
  else if 'А' ≤ c && c ≤ 'Я' then Char.ofNat (c.toNat + 32)
  else if c = 'Ё' then 'ё'
  else c

/-- Uppercasing of one character, inverse direction of `lowerChar`. -/
def upperChar (c : Char) : Char :=
  if 'a' ≤ c && c ≤ 'z' then Char.ofNat (c.toNat - 32)
  else if 'а' ≤ c && c ≤ 'я' then Char.ofNat (c.toNat - 32)
  else if c = 'ё' then 'Ё'
  else c

/-- Lowercase a string (Python str.lower on the modelled alphabets). -/
def rusLower (s : String) : String :=
  List.asString (s.data.map lowerChar)

/-- Uppercase a string (Python str.upper on the modelled alphabets). -/
def rusUpper (s : String) : String :=
  List.asString (s.data.map upperChar)

/-- Strip leading and trailing whitespace from a character list. -/
def trimChars (cs : List Char) : List Char :=
  ((cs.dropWhile isSpaceChar).reverse.dropWhile isSpaceChar).reverse

/-- Python str.strip(): remove surrounding whitespace. -/
def trimStr (s : String) : String :=
  List.asString (trimChars s.data)

/-- Substring occurrence test on character lists: does `n` occur
contiguously inside `h`? -/
def hasSub (n : List Char) : List Char → Bool
  | [] => n.isEmpty
  | c :: t => n.isPrefixOf (c :: t) || hasSub n t

/-- Python's `needle in hay` on strings. -/
def strContains (hay needle : String) : Bool :=
  hasSub needle.data hay.data

/-- One scalar cell of the spreadsheet: absent, a string, or a numeric
value (floats modelled as rationals). -/
inductive Cell where
  | none
  | str (s : String)
  | num (q : ℚ)
deriving DecidableEq

/-- Python truthiness of a raw cell value (`None`, `""` and `0.0` are
falsy, everything else truthy). -/
def cellTruthy : Cell → Bool
  | Cell.none => false
  | Cell.str s => s ≠ ""
  | Cell.num q => q ≠ 0

/-- Python str() of a numeric cell. Integral rationals render like Python
floats ("1000.0"); non-integral ones use the rational printer (a modelling
approximation, exercised by no recognised input path). -/
def pyStr (q : ℚ) : String :=
  if q.den = 1 then toString q.num ++ ".0" else toString q

/-- helpers.norm_text: absent becomes "", otherwise stringify and trim. -/
def norm_text : Cell → String
  | Cell.none => ""
  | Cell.str s => trimStr s
  | Cell.num q => trimStr (pyStr q)

/-- Digit-list to natural number (most significant first). -/
def digitsToNat (ds : List Char) : Nat :=
  ds.foldl (fun a c => 10 * a + (c.toNat - 48)) 0

/-- Multiply a rational by 10^e for a signed exponent. -/
def tenPow (q : ℚ) (e : Int) : ℚ :=
  if 0 ≤ e then q * (10 : ℚ) ^ e.toNat else q / (10 : ℚ) ^ (-e).toNat

/-- Exponent part of a Python float literal: empty, or e/E with optional
sign and at least one digit consuming the whole rest. -/
def parseExpPart : List Char → Option Int
  | [] => some 0
  | c :: t =>
    if c = 'e' || c = 'E' then
      let (sgn, t') : Int × List Char :=
        match t with
        | '+' :: u => (1, u)
        | '-' :: u => (-1, u)
        | u => (1, u)
      if t'.isEmpty || !(t'.all isAsciiDigit) then Option.none
      else some (sgn * (digitsToNat t' : Int))
    else Option.none

/-- Python float(s) on an already-stripped string: optional sign, then
digits with an optional decimal point (at least one digit overall), then
an optional exponent. Underscored literals and inf/nan are not modelled
and yield absent. -/
def pyFloat? (cs0 : List Char) : Option ℚ :=
  let (sgn, cs) : ℚ × List Char :=
    match cs0 with
    | '+' :: t => (1, t)
    | '-' :: t => (-1, t)
    | t => (1, t)
  let ip := cs.takeWhile isAsciiDigit
  let rest := cs.dropWhile isAsciiDigit
  match rest with
  | '.' :: t =>
    let fp := t.takeWhile isAsciiDigit
    let rest' := t.dropWhile isAsciiDigit
    if ip.isEmpty && fp.isEmpty then Option.none
    else
      (parseExpPart rest').map fun e =>
        tenPow (sgn * ((digitsToNat ip : ℚ) +
          (digitsToNat fp : ℚ) / (10 : ℚ) ^ fp.length)) e
  | rest =>
    if ip.isEmpty then Option.none
    else
      (parseExpPart rest).map fun e =>
        tenPow (sgn * (digitsToNat ip : ℚ)) e

/-- helpers.parse_decimal: numbers pass through; strings are trimmed,
null-tokens ("", "-", "nan", "none" case-insensitively) yield absent,
no-break and plain spaces are removed, a comma becomes a point when
locale_comma is set, and the result is float-parsed (absent on failure). -/
def parse_decimal (v : Cell) (locale_comma : Bool) : Option ℚ :=
  match v with
  | Cell.none => Option.none
  | Cell.num q => some q
  | Cell.str s0 =>
    let s := trimStr s0
    if s = "" || rusLower s = "nan" || rusLower s = "none" || rusLower s = "-" then
      Option.none
    else
      let cs := (s.data.map fun c => if c = Char.ofNat 160 then ' ' else c).filter
        (fun c => c ≠ ' ')
      let cs := if locale_comma then cs.map (fun c => if c = ',' then '.' else c) else cs
      pyFloat? cs

/-- Leap-year test (Gregorian). -/
def isLeap (y : Nat) : Bool :=
  y % 4 = 0 && (y % 100 ≠ 0 || y % 400 = 0)

/-- Days in a month of a given year. -/
def daysInMonth (y m : Nat) : Nat :=
  if m = 2 then (if isLeap y then 29 else 28)
  else if m = 4 || m = 6 || m = 9 || m = 11 then 30
  else 31

/-- Left-pad the decimal rendering of a natural number with zeros. -/
def padNat (w n : Nat) : String :=
  let s := toString n
  List.asString (List.replicate (w - s.length) '0') ++ s

/-- Format a date as YYYY-MM-DD (strftime with zero padding). -/
def formatYmd (y m d : Nat) : String :=
  padNat 4 y ++ "-" ++ padNat 2 m ++ "-" ++ padNat 2 d

/-- Split a character list on a separator character (Python str.split with
an explicit separator: empty parts are kept). -/
def splitChar (sep : Char) : List Char → List (List Char)
  | [] => [[]]
  | c :: t =>
    match splitChar sep t with
    | [] => [[]]
    | h :: hs => if c = sep then [] :: h :: hs else (c :: h) :: hs

/-- Validate the three components of a textual date as strptime does:
day and month are 1-2 digits in range, year is exactly 4 digits, and the
day must exist in the month (year 0 is rejected by the calendar type). -/
def mkYmd (yp mp dp : List Char) : Option (Nat × Nat × Nat) :=
  if yp.all isAsciiDigit && mp.all isAsciiDigit && dp.all isAsciiDigit &&
     yp.length = 4 && (mp.length = 1 || mp.length = 2) &&
     (dp.length = 1 || dp.length = 2) then
    let y := digitsToNat yp
    let m := digitsToNat mp
    let d := digitsToNat dp
    if 1 ≤ y && 1 ≤ m && m ≤ 12 && 1 ≤ d && d ≤ daysInMonth y m then
      some (y, m, d)
    else Option.none
  else Option.none

/-- Try a day-month-year textual format with the given separator. -/
def tryFmtDMY (sep : Char) (s : String) : Option String :=
  match splitChar sep s.data with
  | [dp, mp, yp] => (mkYmd yp mp dp).map fun t => formatYmd t.1 t.2.1 t.2.2
  | _ => Option.none

/-- Try a year-month-day textual format with the given separator. -/
def tryFmtYMD (sep : Char) (s : String) : Option String :=
  match splitChar sep s.data with
  | [yp, mp, dp] => (mkYmd yp mp dp).map fun t => formatYmd t.1 t.2.1 t.2.2
  | _ => Option.none

/-- Convert a day count relative to 1970-01-01 into a calendar date
(year, month, day). -/
def civilFromDays (z0 : Int) : Int × Nat × Nat :=
  let z := z0 + 719468
  let era := Int.fdiv z 146097
  let doe := (Int.fmod z 146097).toNat
  let yoe := (doe - doe / 1460 + doe / 36524 - doe / 146096) / 365
  let doy := doe - (365 * yoe + yoe / 4 - yoe / 100)
  let mp := (5 * doy + 2) / 153
  let d := doy - (153 * mp + 2) / 5 + 1
  let m := if mp < 10 then mp + 3 else mp - 9
  ((yoe : Int) + era * 400 + (if m ≤ 2 then 1 else 0), m, d)

/-- Spreadsheet serial-date interpretation: day offset from 1899-12-30
(which lies 25569 days before 1970-01-01); dates outside the calendar
range year 1..9999 overflow and yield absent. -/
def serialToDate (q : ℚ) : Option String :=
  let c := civilFromDays (⌊q⌋ - 25569)
  if 1 ≤ c.1 && c.1 ≤ 9999 then some (formatYmd c.1.toNat c.2.1 c.2.2)
  else Option.none

/-- Raw Python str() of a cell value. -/
def rawText : Cell → String
  | Cell.none => ""
  | Cell.str s => s
  | Cell.num q => pyStr q

/-- helpers.parse_date: absent or blank yields absent; otherwise try the
textual formats DD.MM.YYYY, DD-MM-YYYY, YYYY-MM-DD, YYYY.MM.DD in order,
then fall back to spreadsheet serial-date interpretation. -/
def parse_date (v : Cell) : Option String :=
  match v with
  | Cell.none => Option.none
  | v =>
    let s := trimStr (rawText v)
    if s = "" then Option.none
    else
      match tryFmtDMY '.' s with
      | some r => some r
      | Option.none =>
      match tryFmtDMY '-' s with
      | some r => some r
      | Option.none =>
      match tryFmtYMD '-' s with
      | some r => some r
      | Option.none =>
      match tryFmtYMD '.' s with
      | some r => some r
      | Option.none =>
      match pyFloat? s.data with
      | some q => serialToDate q
      | Option.none => Option.none

/-- helpers.normalize_currency: empty passes through, otherwise trim and
uppercase, with RUR mapped to RUB. -/
def normalize_currency (s : String) : String :=
  if s = "" then s
  else
    let c := rusUpper (trimStr s)
    if c = "RUR" || c = "RUB" then "RUB" else c

/-- Code points of the quote characters stripped by norm_key
(double quote, apostrophe, backquote, « and »). -/
def quoteCodes : List Nat := [34, 39, 96, 171, 187]

/-- Character kept by norm_key: ASCII lowercase letter or digit, or a
Cyrillic letter in the range а..я. -/
def isKeyChar (c : Char) : Bool :=
  ('a' ≤ c && c ≤ 'z') || ('0' ≤ c && c ≤ '9') || ('а' ≤ c && c ≤ 'я')

/-- helpers.norm_key: lowercase, fold ё to е, strip quote characters,
then keep only alphanumerics of the modelled alphabets. -/
def norm_key (s : String) : String :=
  let t := (rusLower s).data.map fun c => if c = 'ё' then 'е' else c
  let t := t.filter fun c => !(quoteCodes.contains c.toNat)
  List.asString (t.filter isKeyChar)

/-- Word character for the regex word-boundary test: alphanumeric of the
modelled alphabets or underscore. -/
def isWordChar (c : Char) : Bool :=
  ('a' ≤ c && c ≤ 'z') || ('A' ≤ c && c ≤ 'Z') || ('0' ≤ c && c ≤ '9') ||
  ('а' ≤ c && c ≤ 'я') || ('А' ≤ c && c ≤ 'Я') || c = 'ё' || c = 'Ё' || c = '_'

/-- ASCII alphanumeric test (the character class of the ISIN body). -/
def isAsciiAlnum (c : Char) : Bool :=
  ('a' ≤ c && c ≤ 'z') || ('A' ≤ c && c ≤ 'Z') || ('0' ≤ c && c ≤ '9')

/-- Case-insensitive ISIN match at the head of a character list: RU
followed by ten ASCII alphanumerics, ending at a word boundary; returns
the uppercased 12-character code. -/
def isinAt (cs : List Char) : Option String :=
  match cs.take 12 with
  | c0 :: c1 :: body =>
    if lowerChar c0 = 'r' && lowerChar c1 = 'u' && body.length = 10 &&
       body.all isAsciiAlnum &&
       (match cs.drop 12 with
        | [] => true
        | c :: _ => !isWordChar c) then
      some (List.asString ((cs.take 12).map upperChar))
    else Option.none
  | _ => Option.none

/-- Scan for the leftmost ISIN occurrence; `prev` is the character just
before the current position (for the word-boundary test). -/
def isinScan (prev : Option Char) : List Char → Option String
  | [] => Option.none
  | c :: t =>
    let boundary := match prev with
      | Option.none => true
      | some p => !isWordChar p
    match (if boundary then isinAt (c :: t) else Option.none) with
    | some r => some r
    | Option.none => isinScan (some c) t

/-- helpers.isin_from_text: leftmost whole-word RU########## match,
uppercased, or absent. -/
def isin_from_text (s : String) : Option String :=
  isinScan Option.none s.data

/-- Exchange keyword table of helpers.to_exchange, in insertion order. -/
def EXCHANGE_MAP : List (String × String) :=
  [("москов", "MCX"), ("moex", "MCX"), ("мосбир", "MCX"),
   ("спб", "SPB"), ("spb", "SPB"),
   ("nasdaq", "NASDAQ"), ("nyse", "NYSE"), ("lse", "LSE"), ("hk", "HK")]

/-- helpers.to_exchange: falsy input yields absent; otherwise the first
keyword contained in the trimmed lowercased venue text decides the code. -/
def to_exchange (place : Option String) : Option String :=
  match place with
  | Option.none => Option.none
  | some p =>
    if p = "" then Option.none
    else
      let s := rusLower (trimStr p)
      (EXCHANGE_MAP.find? fun kv => strContains s kv.1).map fun kv => kv.2

/-- A worksheet: a list of rows of cells. Rows are addressed 1-based and
padded with absent cells up to the column extent, like openpyxl. -/
structure Grid where
  cells : List (List Cell)

/-- Number of rows of a grid. -/
def numRows (g : Grid) : Nat := g.cells.length

/-- Column extent of a grid (maximum row length). -/
def numCols (g : Grid) : Nat := g.cells.foldl (fun a r => max a r.length) 0

/-- Row `r` (1-based), padded with absent cells to the column extent:
the `values` list the source builds for each row. -/
def paddedRow (g : Grid) (r : Nat) : List Cell :=
  (List.range (numCols g)).map fun c => (g.cells.getD (r - 1) []).getD c Cell.none

/-- Concatenation of a row's normalised cell texts with " | ", the text
that section and subtotal patterns are searched in. -/
def lineText (g : Grid) (r : Nat) : String :=
  String.intercalate " | " ((paddedRow g r).map norm_text)

/-- Match a sequence of literal words separated by runs of whitespace,
anchored at the start of the character list (the tail may continue). -/
def wordsMatchAt : List (List Char) → List Char → Bool
  | [], _ => true
  | [w], cs => w.isPrefixOf cs
  | w :: ws, cs =>
    w.isPrefixOf cs &&
      (let cs1 := (cs.drop w.length)
       !(cs1.takeWhile isSpaceChar).isEmpty &&
         wordsMatchAt ws (cs1.dropWhile isSpaceChar))

/-- Like `wordsMatchAt` but returning the unconsumed tail on success. -/
def wordsMatchRest : List (List Char) → List Char → Option (List Char)
  | [], cs => some cs
  | [w], cs => if w.isPrefixOf cs then some (cs.drop w.length) else Option.none
  | w :: ws, cs =>
    if w.isPrefixOf cs then
      let cs1 := cs.drop w.length
      if (cs1.takeWhile isSpaceChar).isEmpty then Option.none
      else wordsMatchRest ws (cs1.dropWhile isSpaceChar)
    else Option.none

/-- Does the predicate hold on some suffix of the list? (regex search:
try every start position left to right). -/
def anySuffix (p : List Char → Bool) : List Char → Bool
  | [] => p []
  | c :: t => p (c :: t) || anySuffix p t

/-- Case-insensitive search of a whitespace-separated word sequence. -/
def searchWords (ws : List String) (s : String) : Bool :=
  anySuffix (wordsMatchAt (ws.map String.data)) (rusLower s).data

/-- SECTION_TRADES_RE: the trades section title pattern. -/
def sectionTradesPat (s : String) : Bool :=
  searchWords ["сделки", "с", "ценными", "бумагами"] s

/-- SECTION_PORTFOLIO_RE: the portfolio section title pattern (with the
alternation on the adjective ending). -/
def sectionPortfolioPat (s : String) : Bool :=
  searchWords ["состояние", "портфеля", "ценных", "бумаг"] s ||
  searchWords ["состояние", "портфеля", "ценными", "бумаг"] s

/-- SECTION_CLEARANCE_RE: the settlement section title pattern. -/
def sectionClearancePat (s : String) : Bool :=
  searchWords ["исполнение", "обязательств", "по", "сделке"] s

/-- Subtotal row pattern «итого по выпуску». -/
def subtotalPat (s : String) : Bool :=
  searchWords ["итого", "по", "выпуску"] s

/-- SECTION_CASH_RE: «движение денежных средств», then a gap that may not
cross a newline (the regex dot), then «за отчетный период». -/
def sectionCashPat (s : String) : Bool :=
  let g1 := (["движение", "денежных", "средств"].map String.data)
  let g2 := (["за", "отчетный", "период"].map String.data)
  anySuffix
    (fun cs =>
      match wordsMatchRest g1 cs with
      | Option.none => false
      | some rest =>
        let k := (rest.takeWhile fun c => c ≠ '\n').length
        (List.range (k + 1)).any fun i => wordsMatchAt g2 (rest.drop i))
    (rusLower s).data

/-- helpers.find_section_title: 1-based index of the first row whose
line text matches the pattern. -/
def find_section_title (g : Grid) (pat : String → Bool) : Option Nat :=
  (List.range' 1 (numRows g)).find? fun r => pat (lineText g r)

/-- dict.setdefault on an insertion-ordered association list. -/
def setdefault (m : List (String × Nat)) (k : String) (v : Nat) :
    List (String × Nat) :=
  if (m.lookup k).isSome then m else m ++ [(k, v)]

/-- Process one header cell at column `j`: for each field and each of its
synonyms contained in the lowercased cell text, record field → j unless
the field is already recorded. -/
def mhiCell (mapping : List (String × List String)) (text : String) (j : Nat)
    (acc : List (String × Nat)) : List (String × Nat) :=
  mapping.foldl
    (fun a kv =>
      kv.2.foldl
        (fun a2 v => if strContains text (rusLower v) then setdefault a2 kv.1 j else a2)
        a)
    acc

/-- Loop of helpers.match_header_indices over the cells. -/
def mhiGo (mapping : List (String × List String)) :
    List Cell → Nat → List (String × Nat) → List (String × Nat)
  | [], _, acc => acc
  | c :: rest, j, acc =>
    let text := rusLower (norm_text c)
    let acc' := if text = "" then acc else mhiCell mapping text j acc
    mhiGo mapping rest (j + 1) acc'

/-- helpers.match_header_indices: map each logical field to the column of
the first cell containing one of its synonyms (later cells never
override). -/
def match_header_indices (values : List Cell)
    (mapping : List (String × List String)) : List (String × Nat) :=
  mhiGo mapping values 0 []

/-- Does a row's header-index map cover all required fields? -/
def rowResolves (g : Grid) (mapping : List (String × List String))
    (needed : List String) (i : Nat) : Bool :=
  needed.all fun k =>
    ((match_header_indices (paddedRow g i) mapping).lookup k).isSome

/-- helpers.find_header_below: scan the lookahead window below the section
title; the first row resolving all required fields is the header row,
otherwise a table-header-not-found error is raised. -/
def find_header_below (g : Grid) (start : Nat)
    (mapping : List (String × List String)) (needed : List String)
    (lookahead : Nat) : Except String (Nat × List (String × Nat)) :=
  let maxR := min (numRows g) (start + lookahead)
  match (List.range' (start + 1) (maxR - start)).find?
      (fun i => rowResolves g mapping needed i) with
  | some i => Except.ok (i, match_header_indices (paddedRow g i) mapping)
  | Option.none => Except.error "Не найден заголовок таблицы после строки раздела."

/-- HEADER_KEYS_TRADES: synonym table of the trades header. -/
def HEADER_KEYS_TRADES : List (String × List String) :=
  [("deal_no", ["номер сделки"]),
   ("deal_date", ["дата сделки"]),
   ("deal_time", ["время сделки"]),
   ("deal_type", ["вид сделки"]),
   ("price", ["цена одной цб", "цена одной", "цена цб"]),
   ("price_ccy", ["валюта цены"]),
   ("qty", ["количество цб", "количество", "кол-во цб"]),
   ("nkd", ["нкд"]),
   ("amount", ["сумма сделки", "сумма"]),
   ("amount_ccy", ["валюта суммы"]),
   ("comm_ts", ["комиссия тс", "комиссия торговой системы"]),
   ("comm_broker", ["комиссия брокера"]),
   ("place", ["место совершения сделки", "место сделки", "площадка"])]

/-- Required fields of the trades header. -/
def tradesNeeded : List String :=
  ["deal_date", "deal_type", "price", "qty", "amount", "amount_ccy"]

/-- HEADER_KEYS_CASH: synonym table of the cash-movement header. -/
def HEADER_KEYS_CASH : List (String × List String) :=
  [("op_no", ["№ операции", "номер операции", "№ операции"]),
   ("date", ["дата"]),
   ("type", ["тип операции"]),
   ("amount", ["сумма"]),
   ("ccy", ["валюта"]),
   ("comment", ["комментарий", "примечание"])]

/-- Required fields of the cash-movement header. -/
def cashNeeded : List String := ["date", "type", "amount", "ccy"]

/-- TRADE_TYPES_MAP as a partial function. -/
def tradeEvent? (s : String) : Option String :=
  if s = "покупка" then some "Buy"
  else if s = "продажа" then some "Sell"
  else Option.none

/-- One output record (core.TargetRow). -/
structure TargetRow where
  Event : String
  Date : String
  Symbol : Option String
  Price : Option ℚ
  Quantity : Option ℚ
  Currency : Option String
  FeeTax : Option ℚ
  Exchange : Option String
  NKD : Option ℚ
  FeeCurrency : Option String
  DoNotAdjustCash : Option String
  Note : Option String
deriving DecidableEq

/-- Mutable state of the trades row scan: emitted rows, the current
issue's note text and resolved ISIN, and the commission batch (record
index and absolute amount pairs plus the accumulated subtotal fee). -/
structure ScanState where
  rows : List TargetRow
  issueText : Option String
  issueIsin : Option String
  batchItems : List (Nat × ℚ)
  batchFee : ℚ
deriving DecidableEq

/-- Python `x or None` on an optional string: empty collapses to absent. -/
def pyOrNone (o : Option String) : Option String :=
  match o with
  | Option.none => Option.none
  | some s => if s = "" then Option.none else some s

/-- Add a commission share to the FeeTax of the record at index `i`
(additively on top of any existing fee). Indices are always in range at
the call sites, since they are positions of previously emitted rows. -/
def updateFee (rs : List TargetRow) (i : Nat) (share : ℚ) : List TargetRow :=
  match rs[i]? with
  | Option.none => rs
  | some t => rs.set i { t with FeeTax := some (t.FeeTax.getD 0 + share) }

/-- core.flush_batch: when allocation is on, the batch is non-empty and
the accumulated fee is non-zero, distribute the fee over the batch
proportionally to each absolute amount's share of the batch total (a zero
total is guarded to 1); then clear the batch unconditionally. -/
def flush_batch (alloc : Bool) (st : ScanState) : ScanState :=
  if (alloc && !st.batchItems.isEmpty && decide (st.batchFee ≠ 0)) = true then
    let s := (st.batchItems.map fun p => p.2).sum
    let total := if s = 0 then 1 else s
    let rows := st.batchItems.foldl
      (fun rs p => updateFee rs p.1 (st.batchFee * (p.2 / total))) st.rows
    { st with rows := rows, batchItems := [], batchFee := 0 }
  else { st with batchItems := [], batchFee := 0 }

/-- Cell of a values list at the column recorded for a logical field
(absent cell when the field is unmapped, matching the source's
`values[get(name)] if get(name) is not None else None`). -/
def cellOf (values : List Cell) (idx : List (String × Nat)) (name : String) :
    Cell :=
  match idx.lookup name with
  | some j => values.getD j Cell.none
  | Option.none => Cell.none

/-- core.find_isin_by_name inner loop: first entry whose non-empty key is
a substring of the normalised lookup key. -/
def fibGo (key : String) : List (String × String) → Option String
  | [] => Option.none
  | (nk, isin) :: rest =>
    if (decide (nk ≠ "") && strContains key nk) = true then some isin
    else fibGo key rest

/-- core.find_isin_by_name: falsy text yields absent; otherwise the first
portfolio entry whose key occurs inside the normalised text wins. -/
def find_isin_by_name (text : String) (m : List (String × String)) :
    Option String :=
  if text = "" then Option.none
  else fibGo (norm_key text) m

/-- One non-terminator row of the trades scan (core.parse_trades_to_target
loop body): subtotal rows accumulate and flush the commission batch,
blank-deal-type rows set the current issue context, valid trade rows emit
a record and possibly register a batch candidate, and all other rows are
skipped. -/
def stepTrade (alloc locale : Bool) (g : Grid) (idx : List (String × Nat))
    (nti : List (String × String)) (r : Nat) (st : ScanState) : ScanState :=
  let values := paddedRow g r
  let lt := lineText g r
  if subtotalPat lt then
    let comm_ts := parse_decimal (cellOf values idx "comm_ts") locale
    let comm_br := parse_decimal (cellOf values idx "comm_broker") locale
    flush_batch alloc
      { st with batchFee := st.batchFee + (comm_ts.getD 0 + comm_br.getD 0) }
  else
    let dtCell := cellOf values idx "deal_type"
    if norm_text dtCell = "" then
      let head_text :=
        String.intercalate " " (((values.map norm_text).filter fun s => s ≠ ""))
      if head_text ≠ "" then
        { st with issueText := some head_text,
                  issueIsin :=
                    match isin_from_text head_text with
                    | some i => some i
                    | Option.none => find_isin_by_name head_text nti }
      else st
    else
      let deal_type := rusLower (norm_text dtCell)
      let deal_date := parse_date (cellOf values idx "deal_date")
      match deal_date, tradeEvent? deal_type with
      | some d, some ev =>
        let price := parse_decimal (cellOf values idx "price") locale
        let qty := parse_decimal (cellOf values idx "qty") locale
        let nkd := parse_decimal (cellOf values idx "nkd") locale
        let amount := parse_decimal (cellOf values idx "amount") locale
        let ccy := (idx.lookup "amount_ccy").map fun j =>
          normalize_currency (norm_text (values.getD j Cell.none))
        let fee_ts := parse_decimal (cellOf values idx "comm_ts") locale
        let fee_br := parse_decimal (cellOf values idx "comm_broker") locale
        let fee0 := fee_ts.getD 0 + fee_br.getD 0
        let fee : Option ℚ := if fee0 ≠ 0 then some fee0 else Option.none
        let place := (idx.lookup "place").map fun j =>
          norm_text (values.getD j Cell.none)
        let exchange := to_exchange place
        let row : TargetRow :=
          { Event := ev, Date := d, Symbol := pyOrNone st.issueIsin,
            Price := price, Quantity := qty, Currency := ccy, FeeTax := fee,
            Exchange := exchange, NKD := some (nkd.getD 0),
            FeeCurrency := Option.none, DoNotAdjustCash := Option.none,
            Note := pyOrNone st.issueText }
        let rows' := st.rows ++ [row]
        let batch' :=
          match amount with
          | some a =>
            if alloc && (match fee with
                         | Option.none => true
                         | some f => f = 0) then
              st.batchItems ++ [(rows'.length - 1, |a|)]
            else st.batchItems
          | Option.none => st.batchItems
        { st with rows := rows', batchItems := batch' }
      | _, _ => st

/-- Is row `r` a terminating section title for the trades scan? -/
def isTerminatorRow (g : Grid) (r : Nat) : Bool :=
  sectionCashPat (lineText g r) || sectionPortfolioPat (lineText g r) ||
  sectionClearancePat (lineText g r)

/-- Row loop of core.parse_trades_to_target: stop (after a final batch
flush) at the first terminating section title, otherwise process each row
in turn until the end of the grid. -/
def scanTrades (alloc locale : Bool) (g : Grid) (idx : List (String × Nat))
    (nti : List (String × String)) : List Nat → ScanState → ScanState
  | [], st => st
  | r :: rest, st =>
    if isTerminatorRow g r then flush_batch alloc st
    else scanTrades alloc locale g idx nti rest (stepTrade alloc locale g idx nti r st)

/-- core.parse_trades_to_target: locate the trades section (missing is a
surfaced error), resolve its header within the 25-row lookahead window
(unresolvable is a surfaced error), then scan the rows below the header. -/
def parse_trades_to_target (g : Grid) (nti : List (String × String))
    (alloc locale : Bool) : Except String (List TargetRow) :=
  match find_section_title g sectionTradesPat with
  | Option.none => Except.error "Раздел «СДЕЛКИ С ЦЕННЫМИ БУМАГАМИ» не найден"
  | some title =>
    match find_header_below g title HEADER_KEYS_TRADES tradesNeeded 25 with
    | Except.error e => Except.error e
    | Except.ok (hr, idx) =>
      Except.ok (scanTrades alloc locale g idx nti
        (List.range' (hr + 1) (numRows g - hr))
        { rows := [], issueText := Option.none, issueIsin := Option.none,
          batchItems := [], batchFee := 0 }).rows

/-- Operation-type text of a cash-movement row (lowercased). -/
def opTypeOf (g : Grid) (col : List (String × Nat)) (r : Nat) : String :=
  if (col.lookup "type").isSome then
    rusLower (norm_text (cellOf (paddedRow g r) col "type"))
  else ""

/-- Parsed date of a cash-movement row. -/
def dateOf (g : Grid) (col : List (String × Nat)) (r : Nat) : Option String :=
  if (col.lookup "date").isSome then parse_date (cellOf (paddedRow g r) col "date")
  else Option.none

/-- Parsed amount of a cash-movement row. -/
def amountOf (locale : Bool) (g : Grid) (col : List (String × Nat)) (r : Nat) :
    Option ℚ :=
  if (col.lookup "amount").isSome then
    parse_decimal (cellOf (paddedRow g r) col "amount") locale
  else Option.none

/-- Normalised currency of a cash-movement row. -/
def ccyOf (g : Grid) (col : List (String × Nat)) (r : Nat) : Option String :=
  (col.lookup "ccy").map fun j =>
    normalize_currency (norm_text ((paddedRow g r).getD j Cell.none))

/-- Comment text of a cash-movement row. -/
def commentOf (g : Grid) (col : List (String × Nat)) (r : Nat) : Option String :=
  (col.lookup "comment").map fun j => norm_text ((paddedRow g r).getD j Cell.none)

/-- One row of the cash-movement scan (core.parse_cash_to_target loop
body): rows without a parseable date are skipped; trade write-off rows
are ignored; deposits and withdrawals emit Cash_In/Cash_Out only for a
truthy amount; coupon rows emit a Dividend; everything else is skipped. -/
def stepCash (locale coupon1 : Bool) (g : Grid) (col : List (String × Nat))
    (nti : List (String × String)) (r : Nat) (acc : List TargetRow) :
    List TargetRow :=
  let op_type := opTypeOf g col r
  let date := dateOf g col r
  let amount := amountOf locale g col r
  let ccy := ccyOf g col r
  let comment := commentOf g col r
  match date with
  | Option.none => acc
  | some d =>
    if strContains op_type "списано по сделке" ||
       strContains op_type "списание по сделке" then acc
    else if strContains op_type "ввод дс" || strContains op_type "пополнение" then
      match amount with
      | some a =>
        if a ≠ 0 then
          acc ++ [{ Event := "Cash_In", Date := d, Symbol := ccy, Price := some 1,
                    Quantity := some |a|, Currency := ccy, FeeTax := some 0,
                    Exchange := Option.none, NKD := some 0,
                    FeeCurrency := Option.none, DoNotAdjustCash := Option.none,
                    Note := comment }]
        else acc
      | Option.none => acc
    else if strContains op_type "вывод дс" || strContains op_type "снятие" then
      match amount with
      | some a =>
        if a ≠ 0 then
          acc ++ [{ Event := "Cash_Out", Date := d, Symbol := ccy, Price := some 1,
                    Quantity := some |a|, Currency := ccy, FeeTax := some 0,
                    Exchange := Option.none, NKD := some 0,
                    FeeCurrency := Option.none, DoNotAdjustCash := Option.none,
                    Note := comment }]
        else acc
      | Option.none => acc
    else if strContains op_type "погашение купона" || strContains op_type "купон" ||
            strContains (rusLower (comment.getD "")) "купон" then
      let symbol :=
        match isin_from_text (comment.getD "") with
        | some i => some i
        | Option.none => find_isin_by_name (comment.getD "") nti
      acc ++ [{ Event := "Dividend", Date := d, Symbol := symbol,
                Price := if coupon1 then some 1 else Option.none,
                Quantity := amount.map fun a => |a|, Currency := ccy,
                FeeTax := some 0, Exchange := Option.none, NKD := some 0,
                FeeCurrency := Option.none, DoNotAdjustCash := Option.none,
                Note := comment }]
    else acc

/-- Row loop of core.parse_cash_to_target: stop at the first row all of
whose cells are falsy, otherwise classify each row in turn. -/
def scanCash (locale coupon1 : Bool) (g : Grid) (col : List (String × Nat))
    (nti : List (String × String)) : List Nat → List TargetRow → List TargetRow
  | [], acc => acc
  | r :: rest, acc =>
    if !((paddedRow g r).any cellTruthy) then acc
    else scanCash locale coupon1 g col nti rest (stepCash locale coupon1 g col nti r acc)

/-- core.parse_cash_to_target: a missing cash-movement section is
non-fatal (empty result); an unresolvable header below a present section
title is a surfaced error; otherwise scan the rows below the header. -/
def parse_cash_to_target (g : Grid) (nti : List (String × String))
    (locale coupon1 : Bool) : Except String (List TargetRow) :=
  match find_section_title g sectionCashPat with
  | Option.none => Except.ok []
  | some title =>
    match find_header_below g title HEADER_KEYS_CASH cashNeeded 25 with
    | Except.error e => Except.error e
    | Except.ok (hr, col) =>
      Except.ok (scanCash locale coupon1 g col nti
        (List.range' (hr + 1) (numRows g - hr)) [])

/-- Specification-side predicate (from the spec's words on header
matching): a header cell matches a logical field when one of the field's
synonym substrings occurs within the lowercased non-empty cell text. -/
def cellKeyHit (variants : List String) (c : Cell) : Bool :=
  let t := rusLower (norm_text c)
  t ≠ "" && variants.any fun v => strContains t (rusLower v)

/-- Specification-side function (from the spec's words): index of the
first (leftmost) element satisfying the predicate. -/
def firstHit (p : Cell → Bool) : List Cell → Option Nat
  | [] => Option.none
  | c :: t => if p c then some 0 else (firstHit p t).map fun i => i + 1

/-- Synthetic grid of the end-to-end commission-allocation scenario:
trades title, header row, issue-header row, two Buy rows with amounts
1000 and 3000 and no individual commission, and a subtotal row with
commission-TS 40. -/
def gridC2 : Grid := ⟨[
  [Cell.str "СДЕЛКИ С ЦЕННЫМИ БУМАГАМИ"],
  [Cell.str "Дата сделки", Cell.str "Вид сделки", Cell.str "Цена одной ЦБ",
   Cell.str "Количество ЦБ", Cell.str "Сумма сделки", Cell.str "Валюта суммы",
   Cell.str "Комиссия ТС", Cell.str "Комиссия брокера"],
  [Cell.str "Bond ABC"],
  [Cell.str "01.02.2023", Cell.str "Покупка", Cell.str "100", Cell.str "10",
   Cell.str "1000", Cell.str "RUB"],
  [Cell.str "02.02.2023", Cell.str "Покупка", Cell.str "100", Cell.str "30",
   Cell.str "3000", Cell.str "RUB"],
  [Cell.str "Итого по выпуску", Cell.none, Cell.none, Cell.none, Cell.none,
   Cell.none, Cell.str "40"]]⟩

/-- A grid with no trades section title anywhere. -/
def gridNoTrades : Grid := ⟨[[Cell.str "привет"]]⟩

/-- A grid whose only row is the trades section title, so the header
lookahead window below it is empty. -/
def gridTitleOnly : Grid := ⟨[[Cell.str "Сделки с ценными бумагами"]]⟩

/-- A trade row used by the allocation witnesses. -/
def sampleRow : TargetRow :=
  { Event := "Buy", Date := "2023-02-01", Symbol := Option.none,
    Price := some 100, Quantity := some 10, Currency := some "RUB",
    FeeTax := Option.none, Exchange := Option.none, NKD := some 0,
    FeeCurrency := Option.none, DoNotAdjustCash := Option.none,
    Note := Option.none }

/-- Concrete rows for the allocation witnesses. -/
def c1rows : List TargetRow := [sampleRow, sampleRow]

/-- Concrete batch for the C1 witness: amounts 1000 and 3000. -/
def c1items : List (Nat × ℚ) := [(0, 1000), (1, 3000)]

/-- Concrete batch for the C8 witness: both absolute amounts zero. -/
def c8items : List (Nat × ℚ) := [(0, 0), (1, 0)]

/-- Initial scan state (what parse_trades_to_target starts from). -/
def initState : ScanState :=
  { rows := [], issueText := Option.none, issueIsin := Option.none,
    batchItems := [], batchFee := 0 }

/-- Grid for the trades-termination witness: an ordinary row, then a
portfolio section title, then a row that must never be scanned. -/
def gridTerm : Grid := ⟨[
  [Cell.str "что-то"],
  [Cell.str "СОСТОЯНИЕ ПОРТФЕЛЯ ЦЕННЫХ БУМАГ"],
  [Cell.str "после"]]⟩

/-- Grid for the cash-termination witness: cash title, header, one
deposit row, a row whose only non-absent cell is the number zero, and a
further deposit row below it. -/
def gridCashStop : Grid := ⟨[
  [Cell.str "ДВИЖЕНИЕ ДЕНЕЖНЫХ СРЕДСТВ ЗА ОТЧЕТНЫЙ ПЕРИОД"],
  [Cell.str "Дата", Cell.str "Тип операции", Cell.str "Сумма",
   Cell.str "Валюта", Cell.str "Комментарий"],
  [Cell.str "01.02.2023", Cell.str "Ввод ДС", Cell.str "500", Cell.str "USD"],
  [Cell.num 0, Cell.none, Cell.none, Cell.none, Cell.none],
  [Cell.str "02.02.2023", Cell.str "Ввод ДС", Cell.str "700", Cell.str "USD"]]⟩

/-- Grid for the cash-classification witness: a zero-amount deposit row
and a coupon row with an absent amount. -/
def gridCash10 : Grid := ⟨[
  [Cell.str "движение денежных средств брокера за отчетный период"],
  [Cell.str "Дата", Cell.str "Тип операции", Cell.str "Сумма",
   Cell.str "Валюта", Cell.str "Комментарий"],
  [Cell.str "01.02.2023", Cell.str "Ввод ДС", Cell.str "0", Cell.str "USD"],
  [Cell.str "03.02.2023", Cell.str "Погашение купона", Cell.none,
   Cell.str "RUB", Cell.str "купон RU000A0JWM18"]]⟩

/-- Column map of the cash grids above (as resolved from their header
row). -/
def cashCol : List (String × Nat) :=
  [("date", 0), ("type", 1), ("amount", 2), ("ccy", 3), ("comment", 4)]

/-- Auxiliary: the find_isin_by_name loop is the first-match search over
the entry list. -/
theorem fibGo_eq_find? (key : String) (m : List (String × String)) :
    fibGo key m =
      (m.find? fun p => decide (p.1 ≠ "") && strContains key p.1).map
        fun p => p.2 := by
  induction m with
  | nil => rfl
  | cons p rest ih =>
    obtain ⟨nk, isin⟩ := p
    show (if (decide (nk ≠ "") && strContains key nk) = true then some isin
          else fibGo key rest) = _
    cases h : (decide (nk ≠ "") && strContains key nk) with
    | true =>
      rw [List.find?_cons_of_pos (p := fun q => decide (q.1 ≠ "") && strContains key q.1)
        (a := (nk, isin)) rest h]
      simp
    | false =>
      rw [List.find?_cons_of_neg (p := fun q => decide (q.1 ≠ "") && strContains key q.1)
        (a := (nk, isin)) rest
        (fun hc => by
          have hc' : (decide (nk ≠ "") && strContains key nk) = true := hc
          rw [h] at hc'
          exact absurd hc' (by decide)), ← ih]
      simp

/-- Auxiliary: a non-empty string never occurs inside the empty string. -/
theorem strContains_empty_of_ne (s : String) (h : s ≠ "") :
    strContains "" s = false := by
  have hd : s.data ≠ [] := by
    intro hdata
    exact h (by cases s with
      | mk l => cases hdata; rfl)
  unfold strContains hasSub
  cases hcases : s.data with
  | nil => exact absurd hcases hd
  | cons c t => simp [List.isEmpty, hcases]

/-- C6: find_isin_by_name returns the ISIN of the first entry, in
insertion order, whose non-empty key is a substring of the normalised
lookup text (absent when no entry matches); in particular the key built
from «Сбербанк» resolves the lookup text «Сбербанк ао». -/
theorem find_isin_by_name_spec :
    (∀ (text : String) (m : List (String × String)),
       find_isin_by_name text m =
         (m.find? fun p => decide (p.1 ≠ "") && strContains (norm_key text) p.1).map
           fun p => p.2)
    ∧ find_isin_by_name "Сбербанк ао" [(norm_key "Сбербанк", "RU0009029540")] =
        some "RU0009029540" := by
  constructor
  · intro text m
    unfold find_isin_by_name
    by_cases htext : text = ""
    · subst htext
      have hnk : norm_key "" = "" := rfl
      rw [if_pos rfl, hnk]
      symm
      rw [Option.map_eq_none']
      rw [List.find?_eq_none]
      intro p _
      by_cases hp : p.1 = ""
      · simp [hp]
      · simp [hp, strContains_empty_of_ne p.1 hp]
    · rw [if_neg htext]
      exact fibGo_eq_find? (norm_key text) m
  · rfl

/-- C5: evaluation of the decimal examples on the code. Three of the
spec's examples hold, but parse_decimal("1,234.56", localeComma=false)
yields absent (the comma is never stripped when localeComma is off),
contradicting the documented support for that format. -/
theorem parse_decimal_examples :
    parse_decimal (Cell.str "1 234,56") true = some (1234.56 : ℚ) ∧
    parse_decimal (Cell.str "1,234.56") false = Option.none ∧
    (∀ b : Bool, parse_decimal (Cell.str "-") b = Option.none) ∧
    (∀ b : Bool, parse_decimal Cell.none b = Option.none) := by
  refine ⟨by with_unfolding_all rfl, by with_unfolding_all rfl, ?_, ?_⟩
  · intro b; cases b <;> with_unfolding_all rfl
  · intro b; cases b <;> rfl

set_option maxRecDepth 100000 in
/-- C2: the end-to-end synthetic grid (title, header, issue header, two
Buy rows with amounts 1000 and 3000 and no individual commission, and a
subtotal row with commission-TS 40) parses, with allocation on, to
exactly two Buy records with FeeTax 10 and 30. -/
theorem end_to_end_allocation :
    (parse_trades_to_target gridC2 [] true true).map
        (fun l => l.map fun t => (t.Event, t.FeeTax)) =
      Except.ok [("Buy", some (10 : ℚ)), ("Buy", some (30 : ℚ))] := by
  with_unfolding_all rfl

/-- Auxiliary: updateFee preserves the row-list length. -/
theorem updateFee_length (rs : List TargetRow) (i : Nat) (s : ℚ) :
    (updateFee rs i s).length = rs.length := by
  unfold updateFee
  split
  · rfl
  · simp [List.length_set]

/-- Auxiliary: updateFee does not touch other indices. -/
theorem updateFee_getElem_ne (rs : List TargetRow) (i : Nat) (s : ℚ) (j : Nat)
    (hne : j ≠ i) : (updateFee rs i s)[j]? = rs[j]? := by
  unfold updateFee
  split
  · rfl
  · exact List.getElem?_set_ne (Ne.symm hne)

/-- Auxiliary: updateFee adds the share on top of the existing fee at its
index. -/
theorem updateFee_getElem_self (rs : List TargetRow) (i : Nat) (s : ℚ)
    (t : TargetRow) (h : rs[i]? = some t) :
    (updateFee rs i s)[i]? =
      some { t with FeeTax := some (t.FeeTax.getD 0 + s) } := by
  have hlt : i < rs.length := by
    rcases List.getElem?_eq_some_iff.mp h with ⟨hl, _⟩
    exact hl
  unfold updateFee
  rw [h]
  exact List.getElem?_set_self hlt

/-- Auxiliary: the allocation fold preserves length. -/
theorem foldl_updateFee_length (f : Nat × ℚ → ℚ) (items : List (Nat × ℚ)) :
    ∀ rs : List TargetRow,
      (items.foldl (fun rs p => updateFee rs p.1 (f p)) rs).length = rs.length := by
  induction items with
  | nil => intro rs; rfl
  | cons p t ih =>
    intro rs
    simpa [List.foldl_cons, updateFee_length] using
      (ih (updateFee rs p.1 (f p))).trans (updateFee_length rs p.1 (f p))

/-- Auxiliary: the allocation fold does not touch indices outside the
batch. -/
theorem foldl_updateFee_not_mem (f : Nat × ℚ → ℚ) (items : List (Nat × ℚ)) :
    ∀ (rs : List TargetRow) (j : Nat), j ∉ items.map Prod.fst →
      (items.foldl (fun rs p => updateFee rs p.1 (f p)) rs)[j]? = rs[j]? := by
  induction items with
  | nil => intro rs j _; rfl
  | cons p t ih =>
    intro rs j hj
    rw [List.map_cons, List.mem_cons] at hj
    push_neg at hj
    rw [List.foldl_cons, ih _ j hj.2, updateFee_getElem_ne rs p.1 (f p) j hj.1]

/-- Auxiliary: with pairwise-distinct in-range indices, the allocation
fold adds exactly the share of each batch entry to that entry's record. -/
theorem foldl_updateFee_get (f : Nat × ℚ → ℚ) (items : List (Nat × ℚ)) :
    ∀ rs : List TargetRow, (items.map Prod.fst).Nodup →
      (∀ p ∈ items, p.1 < rs.length) →
      ∀ k (hk : k < items.length), ∃ t,
        rs[(items[k]).1]? = some t ∧
        (items.foldl (fun rs p => updateFee rs p.1 (f p)) rs)[(items[k]).1]? =
          some { t with FeeTax := some (t.FeeTax.getD 0 + f (items[k])) } := by
  induction items with
  | nil => intro rs _ _ k hk; exact absurd hk (by simp)
  | cons p t ih =>
    intro rs hnd hlt k hk
    rw [List.map_cons, List.nodup_cons] at hnd
    cases k with
    | zero =>
      have hplt : p.1 < rs.length := hlt p (List.mem_cons_self p t)
      refine ⟨rs[p.1], by simp, ?_⟩
      simp only [List.getElem_cons_zero]
      rw [List.foldl_cons,
        foldl_updateFee_not_mem f t (updateFee rs p.1 (f p)) p.1 hnd.1,
        updateFee_getElem_self rs p.1 (f p) rs[p.1] (by simp)]
    | succ k' =>
      have hk' : k' < t.length := by simpa using hk
      have hq : ((p :: t)[k' + 1]) = t[k'] := by simp
      have hmem : t[k'] ∈ t := List.getElem_mem hk'
      have hne : (t[k']).1 ≠ p.1 := by
        intro he
        exact hnd.1 (he ▸ List.mem_map_of_mem Prod.fst hmem)
      have hlt' : ∀ q ∈ t, q.1 < (updateFee rs p.1 (f p)).length := by
        intro q hqmem
        rw [updateFee_length]
        exact hlt q (List.mem_cons_of_mem p hqmem)
      obtain ⟨u, hu1, hu2⟩ := ih (updateFee rs p.1 (f p)) hnd.2 hlt' k' hk'
      refine ⟨u, ?_, ?_⟩
      · rw [hq]
        rw [updateFee_getElem_ne rs p.1 (f p) (t[k']).1 hne] at hu1
        exact hu1
      · rw [hq, List.foldl_cons]
        exact hu2

/-- Auxiliary: a non-empty list is not isEmpty. -/
theorem isEmpty_false_of_ne_nil {α : Type} {l : List α} (h : l ≠ []) :
    l.isEmpty = false := by
  cases l with
  | nil => exact absurd rfl h
  | cons a t => rfl

/-- Auxiliary: the rows produced by a positive flush are the allocation
fold. -/
theorem flush_batch_rows_eq (rows : List TargetRow) (it ii : Option String)
    (items : List (Nat × ℚ)) (F : ℚ) (hne : items ≠ []) (hF : F ≠ 0) :
    (flush_batch true ⟨rows, it, ii, items, F⟩).rows =
      items.foldl
        (fun rs p => updateFee rs p.1
          (F * (p.2 / (if (items.map fun p => p.2).sum = 0 then 1
                       else (items.map fun p => p.2).sum)))) rows := by
  have hcond : (true && !items.isEmpty && decide (F ≠ 0)) = true := by
    simp [isEmpty_false_of_ne_nil hne, hF]
  unfold flush_batch
  rw [if_pos hcond]

/-- Auxiliary: the allocated shares sum to the full fee when the batch
total is non-zero. -/
theorem sum_shares (F S : ℚ) (items : List (Nat × ℚ)) (hS : S ≠ 0)
    (hsum : (items.map fun p => p.2).sum = S) :
    (items.map fun p => F * (p.2 / S)).sum = F := by
  have h1 : ∀ p : Nat × ℚ, F * (p.2 / S) = F / S * p.2 := fun p => by ring
  rw [List.map_congr_left fun a _ => h1 a, List.sum_map_mul_left, hsum,
    div_mul_cancel₀ F hS]

/-- C1: flushing a batch with non-zero fee F and candidate amounts
summing to T > 0 adds exactly F·(aᵢ/T) to candidate i's FeeTax, on top of
any existing fee, and the allocated shares sum to F. -/
theorem flush_batch_allocation (rows : List TargetRow) (it ii : Option String)
    (items : List (Nat × ℚ)) (F : ℚ)
    (hne : items ≠ []) (hF : F ≠ 0)
    (hT : 0 < (items.map fun p => p.2).sum)
    (hnd : (items.map Prod.fst).Nodup)
    (hlt : ∀ p ∈ items, p.1 < rows.length) :
    (∀ k (hk : k < items.length), ∃ t,
        rows[(items[k]).1]? = some t ∧
        (flush_batch true ⟨rows, it, ii, items, F⟩).rows[(items[k]).1]? =
          some { t with
                 FeeTax := some (t.FeeTax.getD 0 +
                   F * ((items[k]).2 / (items.map fun p => p.2).sum)) })
    ∧ (items.map fun p => F * (p.2 / (items.map fun p => p.2).sum)).sum = F := by
  have hS : (items.map fun p => p.2).sum ≠ 0 := ne_of_gt hT
  constructor
  · intro k hk
    have hrows := flush_batch_rows_eq rows it ii items F hne hF
    rw [if_neg hS] at hrows
    rw [hrows]
    exact foldl_updateFee_get
      (fun p => F * (p.2 / (items.map fun p => p.2).sum)) items rows hnd hlt k hk
  · exact sum_shares F _ items hS rfl

/-- Witness for C1 at the batch [(0,1000),(1,3000)] with fee 40: the
total is positive and the shares sum back to 40. -/
theorem flush_batch_allocation_witness :
    (0 : ℚ) < ((c1items.map fun p => p.2).sum) ∧
    (c1items.map fun p =>
        (40 : ℚ) * (p.2 / (c1items.map fun p => p.2).sum)).sum = 40 :=
  ⟨by with_unfolding_all decide,
   (flush_batch_allocation c1rows Option.none Option.none c1items 40
      (by decide) (by decide) (by with_unfolding_all decide)
      (by decide) (by with_unfolding_all decide)).2⟩

/-- C8: flushing a batch whose amounts sum to zero while the fee F is
non-zero is well-defined: the guard makes the denominator 1, each
candidate's fee becomes its old fee plus F·(aᵢ/1), and the row list keeps
its length (no failure). -/
theorem flush_batch_zero_total (rows : List TargetRow) (it ii : Option String)
    (items : List (Nat × ℚ)) (F : ℚ)
    (hne : items ≠ []) (hF : F ≠ 0)
    (hT0 : (items.map fun p => p.2).sum = 0)
    (hnd : (items.map Prod.fst).Nodup)
    (hlt : ∀ p ∈ items, p.1 < rows.length) :
    (∀ k (hk : k < items.length), ∃ t,
        rows[(items[k]).1]? = some t ∧
        (flush_batch true ⟨rows, it, ii, items, F⟩).rows[(items[k]).1]? =
          some { t with
                 FeeTax := some (t.FeeTax.getD 0 + F * ((items[k]).2 / 1)) })
    ∧ (flush_batch true ⟨rows, it, ii, items, F⟩).rows.length = rows.length := by
  have hrows := flush_batch_rows_eq rows it ii items F hne hF
  rw [if_pos hT0] at hrows
  constructor
  · intro k hk
    rw [hrows]
    exact foldl_updateFee_get (fun p => F * (p.2 / 1)) items rows hnd hlt k hk
  · rw [hrows]
    exact foldl_updateFee_length (fun p => F * (p.2 / 1)) items rows

/-- Witness for C8 at the batch [(0,0),(1,0)] with fee 40: the amounts
sum to zero and the flushed row list keeps its length. -/
theorem flush_batch_zero_total_witness :
    ((c8items.map fun p => p.2).sum = 0) ∧
    (flush_batch true ⟨c1rows, Option.none, Option.none, c8items, 40⟩).rows.length =
      c1rows.length :=
  ⟨by with_unfolding_all decide,
   (flush_batch_zero_total c1rows Option.none Option.none c8items 40
      (by decide) (by decide) (by with_unfolding_all decide)
      (by decide) (by with_unfolding_all decide)).2⟩

/-- Auxiliary: a flush always leaves a zero accumulated fee. -/
theorem flush_batch_batchFee (alloc : Bool) (st : ScanState) :
    (flush_batch alloc st).batchFee = 0 := by
  unfold flush_batch
  split
  · rfl
  · rfl

/-- Auxiliary: flushing with a zero accumulated fee does not change the
emitted rows. -/
theorem flush_batch_rows_of_fee_zero (alloc : Bool) (st : ScanState)
    (h : st.batchFee = 0) : (flush_batch alloc st).rows = st.rows := by
  have hc : (alloc && !st.batchItems.isEmpty && decide (st.batchFee ≠ 0)) = false := by
    rw [h]
    simp
  unfold flush_batch
  rw [if_neg (by rw [hc]; simp)]

/-- Auxiliary: every step of the trades scan preserves a zero accumulated
fee (subtotal rows flush immediately after accumulating). -/
theorem stepTrade_batchFee (alloc locale : Bool) (g : Grid)
    (idx : List (String × Nat)) (nti : List (String × String)) (r : Nat)
    (st : ScanState) (h : st.batchFee = 0) :
    (stepTrade alloc locale g idx nti r st).batchFee = 0 := by
  unfold stepTrade
  dsimp only
  split
  · exact flush_batch_batchFee _ _
  · split
    · split
      · exact h
      · exact h
    · split
      · exact h
      · exact h

/-- Auxiliary: a terminator-free run of the trades scan is a fold of the
step function. -/
theorem scanTrades_eq_foldl (alloc locale : Bool) (g : Grid)
    (idx : List (String × Nat)) (nti : List (String × String)) :
    ∀ (rows : List Nat) (st : ScanState),
      (∀ r ∈ rows, isTerminatorRow g r = false) →
      scanTrades alloc locale g idx nti rows st =
        rows.foldl (fun s r => stepTrade alloc locale g idx nti r s) st := by
  intro rows
  induction rows with
  | nil => intro st _; rfl
  | cons r rest ih =>
    intro st hterm
    show (if isTerminatorRow g r then _ else _) = _
    rw [if_neg (by simp [hterm r (List.mem_cons_self r rest)]),
      List.foldl_cons]
    exact ih _ fun q hq => hterm q (List.mem_cons_of_mem r hq)

/-- Auxiliary: a fold of the step function preserves a zero fee. -/
theorem foldl_stepTrade_batchFee (alloc locale : Bool) (g : Grid)
    (idx : List (String × Nat)) (nti : List (String × String)) :
    ∀ (rows : List Nat) (st : ScanState), st.batchFee = 0 →
      (rows.foldl (fun s r => stepTrade alloc locale g idx nti r s) st).batchFee = 0 := by
  intro rows
  induction rows with
  | nil => intro st h; exact h
  | cons r rest ih =>
    intro st h
    rw [List.foldl_cons]
    exact ih _ (stepTrade_batchFee alloc locale g idx nti r st h)

/-- C3: the trades scan stops at the first terminating section title,
flushing the pending batch there; when the grid ends with no terminator
the scan is the plain fold of the step function, whose accumulated fee is
still zero, so a final flush would leave the emitted rows unchanged (no
batch with a non-zero fee is ever discarded). -/
theorem scanTrades_termination :
    (∀ (alloc locale : Bool) (g : Grid) (idx : List (String × Nat))
        (nti : List (String × String)) (pre : List Nat) (t : Nat)
        (post : List Nat) (st : ScanState),
        isTerminatorRow g t = true →
        (∀ r ∈ pre, isTerminatorRow g r = false) →
        scanTrades alloc locale g idx nti (pre ++ t :: post) st =
          flush_batch alloc
            (pre.foldl (fun s r => stepTrade alloc locale g idx nti r s) st))
    ∧ (∀ (alloc locale : Bool) (g : Grid) (idx : List (String × Nat))
        (nti : List (String × String)) (rows : List Nat) (st : ScanState),
        (∀ r ∈ rows, isTerminatorRow g r = false) → st.batchFee = 0 →
        scanTrades alloc locale g idx nti rows st =
          rows.foldl (fun s r => stepTrade alloc locale g idx nti r s) st ∧
        (flush_batch alloc (scanTrades alloc locale g idx nti rows st)).rows =
          (scanTrades alloc locale g idx nti rows st).rows) := by
  constructor
  · intro alloc locale g idx nti pre
    induction pre with
    | nil =>
      intro t post st hterm _
      show (if isTerminatorRow g t then _ else _) = _
      rw [if_pos (by simp [hterm])]
      rfl
    | cons r rest ih =>
      intro t post st hterm hpre
      show (if isTerminatorRow g r then _ else _) = _
      rw [if_neg (by simp [hpre r (List.mem_cons_self r rest)]),
        List.foldl_cons]
      exact ih t post _ hterm fun q hq => hpre q (List.mem_cons_of_mem r hq)
  · intro alloc locale g idx nti rows st hterm hfee
    have heq := scanTrades_eq_foldl alloc locale g idx nti rows st hterm
    refine ⟨heq, ?_⟩
    rw [heq]
    exact flush_batch_rows_of_fee_zero alloc _
      (foldl_stepTrade_batchFee alloc locale g idx nti rows st hfee)

/-- Witness for C3 on a concrete grid: row 2 is a portfolio title, the
scan over rows 1..3 equals a flush after processing row 1 only, and a
terminator-free scan is unchanged by a final flush. -/
theorem scanTrades_termination_witness :
    (isTerminatorRow gridTerm 2 = true ∧
     scanTrades true true gridTerm [] [] [1, 2, 3] initState =
       flush_batch true
         ([1].foldl (fun s r => stepTrade true true gridTerm [] [] r s) initState)) ∧
    ((∀ r ∈ [1], isTerminatorRow gridTerm r = false) ∧
     (flush_batch true (scanTrades true true gridTerm [] [] [1] initState)).rows =
       (scanTrades true true gridTerm [] [] [1] initState).rows) :=
  ⟨⟨by decide,
    scanTrades_termination.1 true true gridTerm [] [] [1] 2 [3] initState
      (by decide) (by decide)⟩,
   ⟨by decide,
    (scanTrades_termination.2 true true gridTerm [] [] [1] initState
      (by decide) rfl).2⟩⟩

/-- C4: a grid with no row matching the trades section-title pattern
makes parse_trades_to_target return a surfaced error, and so does a grid
whose lookahead window below the trades title has no row resolving all
required header fields. -/
theorem parse_trades_structural_errors :
    (∀ (g : Grid) (nti : List (String × String)) (alloc locale : Bool),
        (∀ r, 1 ≤ r → r ≤ numRows g → sectionTradesPat (lineText g r) = false) →
        parse_trades_to_target g nti alloc locale =
          Except.error "Раздел «СДЕЛКИ С ЦЕННЫМИ БУМАГАМИ» не найден")
    ∧ (∀ (g : Grid) (nti : List (String × String)) (alloc locale : Bool) (t : Nat),
        find_section_title g sectionTradesPat = some t →
        (∀ i, t + 1 ≤ i → i ≤ min (numRows g) (t + 25) →
            rowResolves g HEADER_KEYS_TRADES tradesNeeded i = false) →
        parse_trades_to_target g nti alloc locale =
          Except.error "Не найден заголовок таблицы после строки раздела.") := by
  constructor
  · intro g nti alloc locale h
    have hnone : find_section_title g sectionTradesPat = Option.none := by
      unfold find_section_title
      rw [List.find?_eq_none]
      intro x hx
      rw [List.mem_range'] at hx
      obtain ⟨i, hi, rfl⟩ := hx
      simp only [Bool.not_eq_true]
      exact h _ (by omega) (by omega)
    unfold parse_trades_to_target
    rw [hnone]
  · intro g nti alloc locale t hfind h
    have hhdr : find_header_below g t HEADER_KEYS_TRADES tradesNeeded 25 =
        Except.error "Не найден заголовок таблицы после строки раздела." := by
      unfold find_header_below
      have hfnone : (List.range' (t + 1) (min (numRows g) (t + 25) - t)).find?
          (fun i => rowResolves g HEADER_KEYS_TRADES tradesNeeded i) =
          Option.none := by
        rw [List.find?_eq_none]
        intro x hx
        rw [List.mem_range'] at hx
        obtain ⟨i, hi, rfl⟩ := hx
        simp only [Bool.not_eq_true]
        exact h _ (by omega) (by omega)
      dsimp only
      rw [hfnone]
    unfold parse_trades_to_target
    rw [hfind]
    simp only [hhdr]

/-- Witness for C4 on concrete grids: a one-row grid without the trades
title errors out, and a grid consisting of the title alone (empty header
window) errors out. -/
theorem parse_trades_structural_errors_witness :
    (sectionTradesPat (lineText gridNoTrades 1) = false ∧
     parse_trades_to_target gridNoTrades [] true true =
       Except.error "Раздел «СДЕЛКИ С ЦЕННЫМИ БУМАГАМИ» не найден") ∧
    (find_section_title gridTitleOnly sectionTradesPat = some 1 ∧
     parse_trades_to_target gridTitleOnly [] true true =
       Except.error "Не найден заголовок таблицы после строки раздела.") :=
  ⟨⟨by decide,
    parse_trades_structural_errors.1 gridNoTrades [] true true
      (by
        intro r h1 h2
        have h2' : r ≤ 1 := h2
        have hr : r = 1 := by omega
        subst hr
        decide)⟩,
   ⟨by decide,
    parse_trades_structural_errors.2 gridTitleOnly [] true true 1 (by decide)
      (by
        intro i hi1 hi2
        have h3 : i ≤ 1 := hi2
        exact absurd h3 (by omega))⟩⟩

/-- C9: the cash-flow row scan stops at the first row all of whose cells
are falsy (absent, empty string, or the number zero): the result is the
fold of the classifier over the rows strictly before that row, and the
rows after it are never examined. -/
theorem scanCash_stops (locale coupon1 : Bool) (g : Grid)
    (col : List (String × Nat)) (nti : List (String × String)) :
    ∀ (pre : List Nat) (i : Nat) (post : List Nat) (acc : List TargetRow),
      (paddedRow g i).any cellTruthy = false →
      (∀ j ∈ pre, (paddedRow g j).any cellTruthy = true) →
      scanCash locale coupon1 g col nti (pre ++ i :: post) acc =
        pre.foldl (fun a r => stepCash locale coupon1 g col nti r a) acc := by
  intro pre
  induction pre with
  | nil =>
    intro i post acc hb _
    show (if !((paddedRow g i).any cellTruthy) then _ else _) = _
    rw [hb]
    rfl
  | cons r rest ih =>
    intro i post acc hb hpre
    show (if !((paddedRow g r).any cellTruthy) then _ else _) = _
    rw [hpre r (List.mem_cons_self r rest), List.foldl_cons]
    exact ih i post _ hb fun q hq => hpre q (List.mem_cons_of_mem r hq)

/-- Witness for C9: in the concrete cash grid, row 4's only non-absent
cell is the number zero, so the scan over rows 3..5 classifies only
row 3 and never reaches row 5. -/
theorem scanCash_stops_witness :
    ((paddedRow gridCashStop 4).any cellTruthy = false ∧
     scanCash true true gridCashStop cashCol [] [3, 4, 5] [] =
       [3].foldl (fun a r => stepCash true true gridCashStop cashCol [] r a) []) :=
  ⟨by with_unfolding_all decide,
   scanCash_stops true true gridCashStop cashCol [] [3] 4 [5] []
     (by with_unfolding_all decide) (by decide)⟩

/-- C10: a deposit or withdrawal row emits a Cash_In/Cash_Out record only
when its parsed amount is present and non-zero (otherwise nothing is
emitted), while a coupon row with an absent amount still emits a Dividend
record whose Quantity is absent, Price is 1 exactly when the
coupon-as-price-one flag is set, and FeeTax is 0. -/
theorem stepCash_emission :
    (∀ (locale coupon1 : Bool) (g : Grid) (col : List (String × Nat))
        (nti : List (String × String)) (r : Nat) (acc : List TargetRow),
        ((strContains (opTypeOf g col r) "ввод дс" ||
            strContains (opTypeOf g col r) "пополнение") = true ∨
         (strContains (opTypeOf g col r) "вывод дс" ||
            strContains (opTypeOf g col r) "снятие") = true) →
        (amountOf locale g col r = Option.none ∨
         amountOf locale g col r = some 0) →
        stepCash locale coupon1 g col nti r acc = acc)
    ∧ (∀ (locale coupon1 : Bool) (g : Grid) (col : List (String × Nat))
        (nti : List (String × String)) (r : Nat) (acc : List TargetRow)
        (d : String),
        dateOf g col r = some d →
        (strContains (opTypeOf g col r) "списано по сделке" ||
          strContains (opTypeOf g col r) "списание по сделке") = false →
        (strContains (opTypeOf g col r) "ввод дс" ||
          strContains (opTypeOf g col r) "пополнение") = false →
        (strContains (opTypeOf g col r) "вывод дс" ||
          strContains (opTypeOf g col r) "снятие") = false →
        (strContains (opTypeOf g col r) "погашение купона" ||
          strContains (opTypeOf g col r) "купон" ||
          strContains (rusLower ((commentOf g col r).getD "")) "купон") = true →
        amountOf locale g col r = Option.none →
        stepCash locale coupon1 g col nti r acc =
          acc ++ [{ Event := "Dividend", Date := d,
                    Symbol :=
                      match isin_from_text ((commentOf g col r).getD "") with
                      | some i => some i
                      | Option.none =>
                        find_isin_by_name ((commentOf g col r).getD "") nti,
                    Price := if coupon1 then some 1 else Option.none,
                    Quantity := Option.none, Currency := ccyOf g col r,
                    FeeTax := some 0, Exchange := Option.none, NKD := some 0,
                    FeeCurrency := Option.none, DoNotAdjustCash := Option.none,
                    Note := commentOf g col r }]) := by
  constructor
  · intro locale coupon1 g col nti r acc h1 h2
    unfold stepCash
    dsimp only
    cases hdate : dateOf g col r with
    | none => rfl
    | some d =>
      cases hc1 : (strContains (opTypeOf g col r) "списано по сделке" ||
          strContains (opTypeOf g col r) "списание по сделке") with
      | true => simp
      | false =>
        cases hc2 : (strContains (opTypeOf g col r) "ввод дс" ||
            strContains (opTypeOf g col r) "пополнение") with
        | true => rcases h2 with h2 | h2 <;> simp [h2]
        | false =>
          cases hc3 : (strContains (opTypeOf g col r) "вывод дс" ||
              strContains (opTypeOf g col r) "снятие") with
          | true => rcases h2 with h2 | h2 <;> simp [h2]
          | false =>
            rcases h1 with h1 | h1
            · rw [h1] at hc2
              exact absurd hc2 (by decide)
            · rw [h1] at hc3
              exact absurd hc3 (by decide)
  · intro locale coupon1 g col nti r acc d hdate h1 h2 h3 h4 h5
    unfold stepCash
    dsimp only
    rw [hdate, h1, h2, h3, h4, h5]
    simp

/-- Witness for C10: in the concrete cash grid, the zero-amount deposit
row 3 emits nothing and the amount-less coupon row 4 emits one Dividend
with absent Quantity, Price 1 and FeeTax 0. -/
theorem stepCash_emission_witness :
    (amountOf true gridCash10 cashCol 3 = some 0 ∧
     stepCash true true gridCash10 cashCol [] 3 [] = []) ∧
    (amountOf true gridCash10 cashCol 4 = Option.none ∧
     stepCash true true gridCash10 cashCol [] 4 [] =
       [{ Event := "Dividend", Date := "2023-02-03",
          Symbol :=
            match isin_from_text ((commentOf gridCash10 cashCol 4).getD "") with
            | some i => some i
            | Option.none =>
              find_isin_by_name ((commentOf gridCash10 cashCol 4).getD "") [],
          Price := if true then some 1 else Option.none,
          Quantity := Option.none, Currency := ccyOf gridCash10 cashCol 4,
          FeeTax := some 0, Exchange := Option.none, NKD := some 0,
          FeeCurrency := Option.none, DoNotAdjustCash := Option.none,
          Note := commentOf gridCash10 cashCol 4 }]) :=
  ⟨⟨by with_unfolding_all decide,
    stepCash_emission.1 true true gridCash10 cashCol [] 3 []
      (Or.inl (by decide)) (Or.inr (by with_unfolding_all decide))⟩,
   ⟨by with_unfolding_all decide,
    stepCash_emission.2 true true gridCash10 cashCol [] 4 [] "2023-02-03"
      (by decide) (by decide) (by decide) (by decide) (by decide)
      (by with_unfolding_all decide)⟩⟩

/-- Auxiliary: lookup through an appended single binding. -/
theorem lookup_append_single (m : List (String × Nat)) (k k' : String) (v : Nat) :
    (m ++ [(k', v)]).lookup k =
      (m.lookup k).or (if k == k' then some v else Option.none) := by
  induction m with
  | nil =>
    cases h : k == k' <;> simp [List.lookup, h, Option.or]
  | cons p t ih =>
    obtain ⟨a, b⟩ := p
    cases h : k == a <;> simp [List.lookup, h, ih, Option.or]

/-- Auxiliary: setdefault at the looked-up key keeps an existing binding
and otherwise installs the new one. -/
theorem setdefault_lookup_self (m : List (String × Nat)) (k : String) (v : Nat) :
    (setdefault m k v).lookup k = (m.lookup k).or (some v) := by
  unfold setdefault
  split
  · obtain ⟨x, hx⟩ := Option.isSome_iff_exists.mp (by assumption)
    rw [hx]
    rfl
  · rw [lookup_append_single]
    have hnone : m.lookup k = Option.none :=
      Option.not_isSome_iff_eq_none.mp (by assumption)
    rw [hnone]
    simp

/-- Auxiliary: setdefault at a different key does not disturb lookups. -/
theorem setdefault_lookup_ne (m : List (String × Nat)) (k k' : String) (v : Nat)
    (h : (k == k') = false) :
    (setdefault m k' v).lookup k = m.lookup k := by
  unfold setdefault
  split
  · rfl
  · rw [lookup_append_single, h]
    simp

/-- Auxiliary: the synonym fold of one header cell either keeps an
existing binding of the field or installs the cell's column exactly when
some synonym occurs in the cell text. -/
theorem varsFold_lookup_self (text : String) (j : Nat) (k : String)
    (vars : List String) :
    ∀ a : List (String × Nat),
      ((vars.foldl
          (fun a2 v => if strContains text (rusLower v) then setdefault a2 k j else a2)
          a).lookup k) =
        (a.lookup k).or
          (if vars.any (fun v => strContains text (rusLower v)) then some j
           else Option.none) := by
  induction vars with
  | nil =>
    intro a
    simp [Option.or_none]
  | cons v vs ih =>
    intro a
    rw [List.foldl_cons]
    by_cases hv : strContains text (rusLower v) = true
    · rw [if_pos hv, ih (setdefault a k j), setdefault_lookup_self]
      cases a.lookup k <;> simp [Option.or, List.any_cons, hv]
    · rw [if_neg hv, ih a]
      have hv' : strContains text (rusLower v) = false := by
        simpa using hv
      simp [List.any_cons, hv']

/-- Auxiliary: the synonym fold of one header cell never disturbs other
fields' lookups. -/
theorem varsFold_lookup_ne (text : String) (j : Nat) (k k' : String)
    (h : (k == k') = false) (vars : List String) :
    ∀ a : List (String × Nat),
      ((vars.foldl
          (fun a2 v => if strContains text (rusLower v) then setdefault a2 k' j else a2)
          a).lookup k) = a.lookup k := by
  induction vars with
  | nil => intro a; rfl
  | cons v vs ih =>
    intro a
    rw [List.foldl_cons]
    by_cases hv : strContains text (rusLower v) = true
    · rw [if_pos hv, ih (setdefault a k' j), setdefault_lookup_ne _ _ _ _ h]
    · rw [if_neg hv, ih a]

/-- Auxiliary: processing a header cell over entries none of which carry
the looked-up field leaves the field's lookup unchanged. -/
theorem mhiCell_lookup_not_mem (text : String) (j : Nat) (k : String) :
    ∀ (entries : List (String × List String)) (a : List (String × Nat)),
      (∀ e ∈ entries, (k == e.1) = false) →
      (mhiCell entries text j a).lookup k = a.lookup k := by
  intro entries
  induction entries with
  | nil => intro a _; rfl
  | cons e rest ih =>
    intro a hk
    unfold mhiCell
    rw [List.foldl_cons]
    show (mhiCell rest text j _).lookup k = _
    rw [ih _ fun q hq => hk q (List.mem_cons_of_mem e hq),
      varsFold_lookup_ne text j k e.1 (hk e (List.mem_cons_self e rest)) e.2 a]

/-- Auxiliary: processing a header cell binds the looked-up field to this
cell's column exactly when the field is not yet bound and one of its
synonyms occurs in the cell text. -/
theorem mhiCell_lookup (text : String) (j : Nat) (k : String)
    (variants : List String) (mapping : List (String × List String))
    (hmem : (k, variants) ∈ mapping) (hnd : (mapping.map Prod.fst).Nodup) :
    ∀ a : List (String × Nat),
      (mhiCell mapping text j a).lookup k =
        (a.lookup k).or
          (if variants.any (fun v => strContains text (rusLower v)) then some j
           else Option.none) := by
  obtain ⟨pre, post, rfl⟩ := List.append_of_mem hmem
  have hnd' := hnd
  rw [List.map_append, List.map_cons, List.nodup_append] at hnd'
  obtain ⟨hpre, hcons, hdisj⟩ := hnd'
  rw [List.nodup_cons] at hcons
  have hkpre : ∀ e ∈ pre, (k == e.1) = false := by
    intro e he
    refine beq_eq_false_iff_ne.mpr fun hke => ?_
    have h1 : e.1 ∈ pre.map Prod.fst := List.mem_map_of_mem Prod.fst he
    rw [← hke] at h1
    exact hdisj h1 (List.mem_cons_self _ _)
  have hkpost : ∀ e ∈ post, (k == e.1) = false := by
    intro e he
    refine beq_eq_false_iff_ne.mpr fun hke => ?_
    have h1 : e.1 ∈ post.map Prod.fst := List.mem_map_of_mem Prod.fst he
    rw [← hke] at h1
    exact hcons.1 h1
  intro a
  unfold mhiCell
  rw [List.foldl_append, List.foldl_cons]
  have hpost' := mhiCell_lookup_not_mem text j k post
  unfold mhiCell at hpost'
  rw [hpost' _ hkpost]
  have hpre' := mhiCell_lookup_not_mem text j k pre
  unfold mhiCell at hpre'
  rw [varsFold_lookup_self text j k variants, hpre' a hkpre]

/-- Auxiliary: the header scan binds a field to the absolute column of
the first cell whose text is non-empty and contains one of the field's
synonyms. -/
theorem mhiGo_lookup (mapping : List (String × List String)) (k : String)
    (variants : List String) (hmem : (k, variants) ∈ mapping)
    (hnd : (mapping.map Prod.fst).Nodup) :
    ∀ (cells : List Cell) (j : Nat) (a : List (String × Nat)),
      (mhiGo mapping cells j a).lookup k =
        (a.lookup k).or
          ((firstHit (cellKeyHit variants) cells).map fun i => j + i) := by
  intro cells
  induction cells with
  | nil =>
    intro j a
    simp [mhiGo, firstHit, Option.or_none]
  | cons c rest ih =>
    intro j a
    show (mhiGo mapping rest (j + 1)
        (if rusLower (norm_text c) = "" then a
         else mhiCell mapping (rusLower (norm_text c)) j a)).lookup k = _
    by_cases hst : rusLower (norm_text c) = ""
    · rw [if_pos hst, ih (j + 1) a]
      have hhit : cellKeyHit variants c = false := by
        simp [cellKeyHit, hst]
      show _ = (a.lookup k).or ((firstHit (cellKeyHit variants) (c :: rest)).map
        fun i => j + i)
      rw [show firstHit (cellKeyHit variants) (c :: rest) =
          (firstHit (cellKeyHit variants) rest).map (fun i => i + 1) from by
        simp [firstHit, hhit]]
      cases hr : firstHit (cellKeyHit variants) rest with
      | none => rfl
      | some i =>
        show (a.lookup k).or (some (j + 1 + i)) = (a.lookup k).or (some (j + (i + 1)))
        have : j + 1 + i = j + (i + 1) := by omega
        rw [this]
    · rw [if_neg hst, ih (j + 1) (mhiCell mapping (rusLower (norm_text c)) j a),
        mhiCell_lookup (rusLower (norm_text c)) j k variants mapping hmem hnd a]
      cases hhit : variants.any
          (fun v => strContains (rusLower (norm_text c)) (rusLower v)) with
      | true =>
        have hc : cellKeyHit variants c = true := by
          simp [cellKeyHit, hst, hhit]
        rw [show firstHit (cellKeyHit variants) (c :: rest) = some 0 from by
          simp [firstHit, hc]]
        cases a.lookup k <;> simp [Option.or]
      | false =>
        have hc : cellKeyHit variants c = false := by
          simp [cellKeyHit, hst, hhit]
        rw [show firstHit (cellKeyHit variants) (c :: rest) =
            (firstHit (cellKeyHit variants) rest).map (fun i => i + 1) from by
          simp [firstHit, hc]]
        cases hr : firstHit (cellKeyHit variants) rest with
        | none => cases a.lookup k <;> rfl
        | some i =>
          have : j + 1 + i = j + (i + 1) := by omega
          cases a.lookup k <;> simp [Option.or, this]

/-- Auxiliary: find? over a contiguous range returns the least index
satisfying the predicate. -/
theorem find?_range'_eq_some (p : Nat → Bool) :
    ∀ (n s i : Nat), s ≤ i → i < s + n → p i = true →
      (∀ j, s ≤ j → j < i → p j = false) →
      (List.range' s n).find? p = some i := by
  intro n
  induction n with
  | zero => intro s i h1 h2 _ _; exact absurd h2 (by omega)
  | succ n ih =>
    intro s i h1 h2 hp hmin
    rw [List.range'_succ]
    by_cases hsi : i = s
    · subst hsi
      exact List.find?_cons_of_pos _ hp
    · have hps : p s = false := hmin s le_rfl (by omega)
      rw [List.find?_cons_of_neg _ (by simp [hps])]
      exact ih (s + 1) i (by omega) (by omega) hp fun j hj1 hj2 =>
        hmin j (by omega) hj2

/-- C7: match_header_indices maps a field to the column of the first
(leftmost) cell containing one of its synonyms, with later cells never
overriding; and find_header_below returns the first row of the lookahead
window resolving all required fields, raising a header-not-found error
when the window is exhausted. -/
theorem header_matching_spec :
    (∀ (values : List Cell) (mapping : List (String × List String))
        (k : String) (variants : List String),
        (k, variants) ∈ mapping → (mapping.map Prod.fst).Nodup →
        (match_header_indices values mapping).lookup k =
          firstHit (cellKeyHit variants) values)
    ∧ (∀ (g : Grid) (start : Nat) (mapping : List (String × List String))
        (needed : List String) (la hdr : Nat),
        start + 1 ≤ hdr → hdr ≤ min (numRows g) (start + la) →
        rowResolves g mapping needed hdr = true →
        (∀ j, start + 1 ≤ j → j < hdr → rowResolves g mapping needed j = false) →
        find_header_below g start mapping needed la =
          Except.ok (hdr, match_header_indices (paddedRow g hdr) mapping))
    ∧ (∀ (g : Grid) (start : Nat) (mapping : List (String × List String))
        (needed : List String) (la : Nat),
        (∀ j, start + 1 ≤ j → j ≤ min (numRows g) (start + la) →
            rowResolves g mapping needed j = false) →
        find_header_below g start mapping needed la =
          Except.error "Не найден заголовок таблицы после строки раздела.") := by
  refine ⟨?_, ?_, ?_⟩
  · intro values mapping k variants hmem hnd
    unfold match_header_indices
    rw [mhiGo_lookup mapping k variants hmem hnd values 0 []]
    show Option.or Option.none _ = _
    cases hr : firstHit (cellKeyHit variants) values with
    | none => rfl
    | some i =>
      show some (0 + i) = some i
      rw [Nat.zero_add]
  · intro g start mapping needed la hdr h1 h2 hp hmin
    unfold find_header_below
    dsimp only
    rw [find?_range'_eq_some (fun i => rowResolves g mapping needed i)
      (min (numRows g) (start + la) - start) (start + 1) hdr (by omega)
      (by omega) hp (fun j hj1 hj2 => hmin j hj1 hj2)]
  · intro g start mapping needed la h
    unfold find_header_below
    dsimp only
    have hfnone : (List.range' (start + 1) (min (numRows g) (start + la) - start)).find?
        (fun i => rowResolves g mapping needed i) = Option.none := by
      rw [List.find?_eq_none]
      intro x hx
      rw [List.mem_range'] at hx
      obtain ⟨i, hi, rfl⟩ := hx
      simp only [Bool.not_eq_true]
      exact h _ (by omega) (by omega)
    rw [hfnone]

set_option maxRecDepth 100000 in
/-- Witness for C7: in a concrete header row «Сумма сделки | Сумма» the
amount field binds to column 0 and the second matching cell does not
override; the trades header of the end-to-end grid resolves at row 2; a
grid whose window is empty raises the header error. -/
theorem header_matching_spec_witness :
    (("amount", ["сумма сделки", "сумма"]) ∈ HEADER_KEYS_TRADES ∧
     (match_header_indices [Cell.str "Сумма сделки", Cell.str "Сумма"]
         HEADER_KEYS_TRADES).lookup "amount" =
       firstHit (cellKeyHit ["сумма сделки", "сумма"])
         [Cell.str "Сумма сделки", Cell.str "Сумма"]) ∧
    (rowResolves gridC2 HEADER_KEYS_TRADES tradesNeeded 2 = true ∧
     find_header_below gridC2 1 HEADER_KEYS_TRADES tradesNeeded 25 =
       Except.ok (2, match_header_indices (paddedRow gridC2 2) HEADER_KEYS_TRADES)) ∧
    find_header_below gridTitleOnly 1 HEADER_KEYS_TRADES tradesNeeded 25 =
      Except.error "Не найден заголовок таблицы после строки раздела." :=
  ⟨⟨by decide,
    header_matching_spec.1 [Cell.str "Сумма сделки", Cell.str "Сумма"]
      HEADER_KEYS_TRADES "amount" ["сумма сделки", "сумма"] (by decide) (by decide)⟩,
   ⟨by decide,
    header_matching_spec.2.1 gridC2 1 HEADER_KEYS_TRADES tradesNeeded 25 2
      (by decide) (by decide) (by decide)
      (by
        intro j hj1 hj2
        exact absurd hj2 (by omega))⟩,
   header_matching_spec.2.2 gridTitleOnly 1 HEADER_KEYS_TRADES tradesNeeded 25
     (by
       intro j hj1 hj2
       have h3 : j ≤ 1 := hj2
       exact absurd h3 (by omega))⟩

end TB
